import Mathlib

/-!
Shallow embedding of `files/files.py` (class `Files` of the pridepy
repository) and proofs about its operations.

The module is a thin client over the PRIDE archive REST API.  Pure string
manipulation (URL construction, path splitting, regex search) is embedded
directly; the external collaborators (the HTTP transport `Util.get_api_call`,
`urllib.request.urlretrieve`, `glob.glob`, `os.path.isdir`/`os.mkdir`,
`shutil.copy2`, `logging`) are modelled as oracles or as explicit effects on a
simple filesystem state (a list of directory names and a list of file-entry
paths), and each operation returns the list of external actions it performs.
Python runtime failures (IndexError, AttributeError, FileExistsError, the
generic `Exception`) are modelled with `Except PyErr`.
-/

namespace Pridepy

/-- Python runtime errors that the code in `files.py` can raise. -/
inductive PyErr where
  | indexError
  | attributeError
  | fileExistsError
  | exception (msg : String)
  deriving DecidableEq, Repr

/-- One entry of a record's `publicFileLocations` JSON array:
`{name: ..., value: ...}`. -/
structure Location where
  name : String
  value : String
  deriving DecidableEq, Repr

/-- A file record as returned by the `files/byProject` endpoint:
`{accession: ..., publicFileLocations: [...]}`. -/
structure FileRecord where
  accession : String
  publicFileLocations : List Location
  deriving DecidableEq, Repr

/-- Python `s.rsplit('/', 1)` on a list of characters: splits at the LAST
`'/'`, returning `(before, after)`, or `none` when the string has no `'/'`. -/
def rsplit1Chars : List Char → Option (List Char × List Char)
  | [] => none
  | c :: cs =>
    match rsplit1Chars cs with
    | some (b, a) => some (c :: b, a)
    | none => if c = '/' then some ([], cs) else none

/-- `ftp_filepath.rsplit('/', 1)[1]` as it appears in `files.py`: the
substring after the last `'/'`; indexing `[1]` raises IndexError when the
string contains no `'/'` (rsplit then returned a one-element list). -/
def filenameAfterSlash (s : String) : Except PyErr String :=
  match rsplit1Chars s.data with
  | some (_, a) => .ok (String.mk a)
  | none => .error .indexError

/-- Specification-side basename: the characters after the last `'/'`,
written as the reversed longest `'/'`-free suffix. -/
def basenameSpec (s : String) : String :=
  String.mk (s.data.reverse.takeWhile (fun c => c ≠ '/')).reverse

/-- A Python `for` loop over a list whose body can raise: sequential, stops
at the first error (no error isolation between iterations). -/
def mapExcept (f : α → Except PyErr β) : List α → Except PyErr (List β)
  | [] => .ok []
  | a :: as =>
    match f a with
    | .error e => .error e
    | .ok b =>
      match mapExcept f as with
      | .error e => .error e
      | .ok bs => .ok (b :: bs)

/-- `Files.api_base_url`. -/
def api_base_url : String := "https://www.ebi.ac.uk/pride/ws/archive/v2/"

/-- An HTTP request as handed to the collaborator `Util.get_api_call`:
the URL and the headers. -/
structure Request where
  url : String
  headers : List (String × String)
  deriving DecidableEq, Repr

/-- `Files.get_all_paged_files`, with the transport-plus-JSON-parse
collaborator (`Util.get_api_call` followed by `response.json()`) passed as
the oracle `api`.  Builds the request URL by string concatenation — the
filter is appended only when (Python-)truthy, i.e. non-empty — sends the
`Accept: application/JSON` header, and returns the parsed body unmodified. -/
def get_all_paged_files (api : Request → α) (query_filter : String)
    (page_size page : Nat) (sort_direction sort_conditions : String) : α :=
  let request_url := api_base_url ++ "files?"
  let request_url :=
    if query_filter ≠ "" then request_url ++ "filter=" ++ query_filter ++ "&"
    else request_url
  let request_url := request_url ++ "pageSize=" ++ toString page_size ++
    "&page=" ++ toString page ++ "&sortDirection=" ++ sort_direction ++
    "&sortConditions=" ++ sort_conditions
  api ⟨request_url, [("Accept", "application/JSON")]⟩

/-- `Files.get_file_from_api`: the try/except around the API call and JSON
parse.  The underlying outcome (an `Except` whose error carries `str(e)` of
the Python exception) is passed in; any failure is re-raised as a generic
`Exception` whose message is `"File not found" + str(e)`. -/
def get_file_from_api (apiOutcome : Except String α) : Except PyErr α :=
  match apiOutcome with
  | .ok r => .ok r
  | .error e => .error (.exception ("File not found" ++ e))

/-- The FTP-location selection inside `Files.download_files_from_ftp`:
`locations[0].value` when `locations[0].name == 'FTP Protocol'`, else
`locations[1].value`; no further fallback, missing indices raise. -/
def selectFtpLocation (r : FileRecord) : Except PyErr String :=
  match r.publicFileLocations[0]? with
  | none => .error .indexError
  | some l0 =>
    if l0.name = "FTP Protocol" then .ok l0.value
    else
      match r.publicFileLocations[1]? with
      | none => .error .indexError
      | some l1 => .ok l1.value

/-- One `urllib.request.urlretrieve(ftp_filepath, output_folder + new_file_path)`
call, recorded as an action: source URL and destination path. -/
structure Retrieval where
  url : String
  dest : String
  deriving DecidableEq, Repr

/-- The body of the `for` loop in `Files.download_files_from_ftp` for one
record: select the FTP location, derive the filename after the last `'/'`,
and retrieve to `output_folder + new_file_path`. -/
def downloadOne (output_folder : String) (r : FileRecord) : Except PyErr Retrieval :=
  match selectFtpLocation r with
  | .error e => .error e
  | .ok ftp_filepath =>
    match filenameAfterSlash ftp_filepath with
    | .error e => .error e
    | .ok new_file_path => .ok ⟨ftp_filepath, output_folder ++ new_file_path⟩

/-- `Files.download_files_from_ftp`: iterates over the record list in order,
emitting one retrieval per record; a failure aborts the whole batch. -/
def download_files_from_ftp (file_list_json : List FileRecord)
    (output_folder : String) : Except PyErr (List Retrieval) :=
  mapExcept (downloadOne output_folder) file_list_json

/-- The regex `\d{4}/\d{2}/PXD\d*` of `Files.get_submitted_file_path_prefix`,
attempted at the START of `cs`: four digits, `'/'`, two digits, `'/'`,
literal `PXD`, then the (greedy, possibly empty) run of digits. -/
def matchPXDAt : List Char → Option (List Char)
  | d1 :: d2 :: d3 :: d4 :: s1 :: m1 :: m2 :: s2 :: p :: x :: d :: rest =>
    if d1.isDigit ∧ d2.isDigit ∧ d3.isDigit ∧ d4.isDigit ∧ s1 = '/' ∧
       m1.isDigit ∧ m2.isDigit ∧ s2 = '/' ∧ p = 'P' ∧ x = 'X' ∧ d = 'D' then
      some ([d1, d2, d3, d4, s1, m1, m2, s2, p, x, d] ++
        rest.takeWhile (fun c => c.isDigit))
    else none
  | _ => none

/-- `re.search(r'\d{4}/\d{2}/PXD\d*', s)`: try the pattern at each position
from the left, returning the leftmost (greedy) match. -/
def searchPXD : List Char → Option (List Char)
  | [] => none
  | c :: cs =>
    match matchPXDAt (c :: cs) with
    | some m => some m
    | none => searchPXD cs

/-- Specification-side shape of a match of `\d{4}/\d{2}/PXD\d*`: a 4-digit
year, `'/'`, a 2-digit month, `'/'`, and a `PXD`-prefixed run of digits. -/
def pxdShape : List Char → Bool
  | d1 :: d2 :: d3 :: d4 :: s1 :: m1 :: m2 :: s2 :: p :: x :: d :: ds =>
    d1.isDigit && d2.isDigit && d3.isDigit && d4.isDigit &&
    decide (s1 = '/') && m1.isDigit && m2.isDigit && decide (s2 = '/') &&
    decide (p = 'P') && decide (x = 'X') && decide (d = 'D') &&
    ds.all (fun c => c.isDigit)
  | _ => false

/-- `Files.get_submitted_file_path_prefix`, with the API response of
`get_all_raw_file_list(accession)` passed in as `results`.  Takes
`results[0]['publicFileLocations'][0]['value']` (IndexError when either list
is empty) and returns `re.search(r'\d{4}/\d{2}/PXD\d*', first_file).group()`
(AttributeError — `.group()` of `None` — when the pattern does not match). -/
def get_submitted_file_path_prefix (results : List FileRecord) :
    Except PyErr String :=
  match results[0]? with
  | none => .error .indexError
  | some r0 =>
    match r0.publicFileLocations[0]? with
    | none => .error .indexError
    | some loc0 =>
      match searchPXD loc0.value.data with
      | none => .error .attributeError
      | some path_fragment => .ok (String.mk path_fragment)

/-- Shell-glob matching as performed by the external collaborator
`glob.glob` on one candidate path: `*` matches any run of non-separator
characters, `?` one non-separator character, anything else literally. -/
def globMatch : List Char → List Char → Bool
  | [], s => s.isEmpty
  | '*' :: ps, [] => globMatch ps []
  | '*' :: ps, c :: cs =>
    globMatch ps (c :: cs) || (decide (c ≠ '/') && globMatch ('*' :: ps) cs)
  | '?' :: _, [] => false
  | '?' :: ps, c :: cs => decide (c ≠ '/') && globMatch ps cs
  | _ :: _, [] => false
  | p :: ps, c :: cs => decide (p = c) && globMatch ps cs
termination_by p s => p.length + s.length

/-- The external collaborator `glob.glob(pattern)`, modelled over a flat
listing `entries` of the filesystem's file paths: the entries matching the
pattern, in listing (filesystem-dependent) order. -/
def glob_glob (entries : List String) (pattern : String) : List String :=
  entries.filter (fun e => globMatch pattern.data e.data)

/-- `Files.get_files_from_dir`: globs `location + regex` over the filesystem
listing `entries` and collects `file.rsplit('/', 1)[1]` for each hit (the
`[1]` raises IndexError on a path without `'/'`). -/
def get_files_from_dir (entries : List String) (location regex : String) :
    Except PyErr (List String) :=
  mapExcept (fun file => filenameAfterSlash file) (glob_glob entries (location ++ regex))

/-- The externally observable outcome of one iteration of the loop in
`Files.copy_from_dir`: either a `shutil.copy2(source, destination)` call or
a `logging.error(name + " not found in " + dir)` message. -/
inductive CopyEvent where
  | copied (source_file destination_file : String)
  | notFound (file_name complete_source_dir : String)
  deriving DecidableEq, Repr

/-- The body of the `for` loop in `Files.copy_from_dir` for one record:
take `publicFileLocations[0]['value']` unconditionally (no protocol-name
check), derive the filename after the last `'/'`, and either copy
`complete_source_dir + name` to `accession + "-" + name` (a relative path,
i.e. the current working directory) or log the name as not found. -/
def copyOne (complete_source_dir : String) (file_list_from_dir : List String)
    (r : FileRecord) : Except PyErr CopyEvent :=
  match r.publicFileLocations[0]? with
  | none => .error .indexError
  | some l0 =>
    match filenameAfterSlash l0.value with
    | .error e => .error e
    | .ok file_name_from_ftp =>
      if file_name_from_ftp ∈ file_list_from_dir then
        .ok (.copied (complete_source_dir ++ file_name_from_ftp)
          (r.accession ++ "-" ++ file_name_from_ftp))
      else
        .ok (.notFound file_name_from_ftp complete_source_dir)

/-- `Files.copy_from_dir`: iterate over the API record list, copying each
record whose derived filename is in the local listing and logging the rest. -/
def copy_from_dir (complete_source_dir : String) (file_list_from_dir : List String)
    (file_list_json : List FileRecord) : Except PyErr (List CopyEvent) :=
  mapExcept (copyOne complete_source_dir file_list_from_dir) file_list_json

/-- The external collaborator `os.mkdir`: raises FileExistsError when the
directory already exists, otherwise creates it. -/
def os_mkdir (dirs : List String) (d : String) : Except PyErr (List String) :=
  if d ∈ dirs then .error .fileExistsError else .ok (d :: dirs)

/-- Outcome of the directory-ensure prologue shared by
`download_raw_files_from_ftp` and `download_file_from_ftp_by_name`:
the directory list afterwards, and whether `os.mkdir` was attempted. -/
structure EnsureResult where
  dirs : List String
  mkdirAttempted : Bool
  deriving DecidableEq, Repr

/-- `if not (os.path.isdir(output_folder)): os.mkdir(output_folder)` —
creation is attempted only when the directory is absent. -/
def ensure_output_folder (dirs : List String) (output_folder : String) :
    Except PyErr EnsureResult :=
  if output_folder ∈ dirs then .ok ⟨dirs, false⟩
  else
    match os_mkdir dirs output_folder with
    | .error e => .error e
    | .ok dirs' => .ok ⟨dirs', true⟩

/-- `Files.download_raw_files_from_ftp`, with the API response of
`get_all_raw_file_list(accession)` passed in as `records` and the filesystem
directory list as `dirs`: ensure the output folder exists, then run
`download_files_from_ftp` on the response. -/
def download_raw_files_from_ftp (dirs : List String) (records : List FileRecord)
    (output_folder : String) : Except PyErr (EnsureResult × List Retrieval) :=
  match ensure_output_folder dirs output_folder with
  | .error e => .error e
  | .ok er =>
    match download_files_from_ftp records output_folder with
    | .error e => .error e
    | .ok rs => .ok (er, rs)

/-- `Files.download_file_from_ftp_by_name`, with the transport outcome of the
`get_file_from_api` call passed in as `apiOutcome`: ensure the output folder
exists, wrap the API outcome, then reuse `download_files_from_ftp`. -/
def download_file_from_ftp_by_name (dirs : List String)
    (apiOutcome : Except String (List FileRecord)) (output_folder : String) :
    Except PyErr (EnsureResult × List Retrieval) :=
  match ensure_output_folder dirs output_folder with
  | .error e => .error e
  | .ok er =>
    match get_file_from_api apiOutcome with
    | .error e => .error e
    | .ok response =>
      match download_files_from_ftp response output_folder with
      | .error e => .error e
      | .ok rs => .ok (er, rs)

/-- Externally observable outcome of `Files.copy_raw_files_from_dir`:
whether the missing-source-directory condition was logged
(`logging.exception("Folder does not exists! " + ...)`), and the per-record
copy/log events. -/
structure CopyRunResult where
  missingDirLogged : Bool
  events : List CopyEvent
  deriving DecidableEq, Repr

/-- `Files.copy_raw_files_from_dir`, with the API response of
`get_all_raw_file_list(accession)` passed in as `records` (it is also what
`get_submitted_file_path_prefix` examines) and the filesystem modelled by
`dirs` (directories) and `entries` (file paths): resolve the path fragment,
build `source_base_directory + "/" + fragment + "/submitted/"`, log — but do
not stop on — a missing directory, glob `*.raw` there, and copy via
`copy_from_dir`. -/
def copy_raw_files_from_dir (dirs entries : List String)
    (records : List FileRecord) (source_base_directory : String) :
    Except PyErr CopyRunResult :=
  match get_submitted_file_path_prefix records with
  | .error e => .error e
  | .ok path_fragment =>
    let complete_source_dir :=
      source_base_directory ++ "/" ++ path_fragment ++ "/submitted/"
    let missing := decide (complete_source_dir ∉ dirs)
    match get_files_from_dir entries complete_source_dir "*.raw" with
    | .error e => .error e
    | .ok file_list_from_dir =>
      match copy_from_dir complete_source_dir file_list_from_dir records with
      | .error e => .error e
      | .ok events => .ok ⟨missing, events⟩

/-! ### Helper lemmas about the string primitives -/

theorem rsplit1Chars_eq_none {cs : List Char} :
    rsplit1Chars cs = none ↔ '/' ∉ cs := by
  induction cs with
  | nil => simp [rsplit1Chars]
  | cons c cs ih =>
    simp only [rsplit1Chars, List.mem_cons]
    cases h : rsplit1Chars cs with
    | some p =>
      obtain ⟨b', a'⟩ := p
      have hmem : '/' ∈ cs := by
        by_contra hmem
        have h' := ih.mpr hmem
        rw [h] at h'
        exact Option.noConfusion h'
      simp [hmem]
    | none =>
      have hmem : '/' ∉ cs := ih.mp h
      by_cases hc : c = '/' <;> simp [hc, hmem, eq_comm]

theorem rsplit1Chars_eq_some {cs : List Char} : ∀ {b a : List Char},
    rsplit1Chars cs = some (b, a) → cs = b ++ '/' :: a ∧ '/' ∉ a := by
  induction cs with
  | nil => intro b a h; simp [rsplit1Chars] at h
  | cons c cs ih =>
    intro b a h
    simp only [rsplit1Chars] at h
    cases hcs : rsplit1Chars cs with
    | some p =>
      obtain ⟨b', a'⟩ := p
      rw [hcs] at h
      simp only [Option.some.injEq, Prod.mk.injEq] at h
      obtain ⟨hb, ha⟩ := h
      obtain ⟨hcs', hna⟩ := ih hcs
      subst hb
      subst ha
      exact ⟨by rw [hcs']; rfl, hna⟩
    | none =>
      rw [hcs] at h
      by_cases hc : c = '/'
      · rw [if_pos hc] at h
        simp only [Option.some.injEq, Prod.mk.injEq] at h
        obtain ⟨hb, ha⟩ := h
        subst hb
        subst ha
        exact ⟨by simp [hc], rsplit1Chars_eq_none.mp hcs⟩
      · rw [if_neg hc] at h
        exact Option.noConfusion h

theorem takeWhile_append_sep {p : Char → Bool} {l₁ l₂ : List Char} {y : Char}
    (h₁ : ∀ x ∈ l₁, p x = true) (hy : p y = false) :
    (l₁ ++ y :: l₂).takeWhile p = l₁ := by
  induction l₁ with
  | nil => simp [List.takeWhile_cons, hy]
  | cons x l ih =>
    have hx : p x = true := h₁ x (by simp)
    simp only [List.cons_append, List.takeWhile_cons, hx, if_true]
    rw [ih (fun z hz => h₁ z (by simp [hz]))]

theorem basenameSpec_of_split {s : String} {b a : List Char}
    (h : rsplit1Chars s.data = some (b, a)) : String.mk a = basenameSpec s := by
  obtain ⟨hsd, hna⟩ := rsplit1Chars_eq_some h
  unfold basenameSpec
  have hrev : s.data.reverse = a.reverse ++ '/' :: b.reverse := by
    rw [hsd]
    simp
  rw [hrev, takeWhile_append_sep (p := fun c => decide (c ≠ '/'))
    (fun x hx => by
      simp only [decide_eq_true_eq]
      intro hx'
      exact hna (by rw [← hx']; exact List.mem_reverse.mp hx))
    (by simp), List.reverse_reverse]

theorem filenameAfterSlash_eq_basename {s : String} (h : '/' ∈ s.data) :
    filenameAfterSlash s = .ok (basenameSpec s) := by
  unfold filenameAfterSlash
  cases hs : rsplit1Chars s.data with
  | none => exact absurd h (rsplit1Chars_eq_none.mp hs)
  | some p =>
    obtain ⟨b, a⟩ := p
    show Except.ok (String.mk a) = .ok (basenameSpec s)
    rw [basenameSpec_of_split hs]

/-! ### Helper lemmas about `mapExcept` -/

theorem mapExcept_ok_of_forall {α β : Type} {f : α → Except PyErr β} {g : α → β}
    {l : List α} (h : ∀ a ∈ l, f a = .ok (g a)) :
    mapExcept f l = .ok (l.map g) := by
  induction l with
  | nil => rfl
  | cons a as ih =>
    simp only [mapExcept, h a (by simp), ih (fun x hx => h x (by simp [hx])),
      List.map_cons]

theorem mapExcept_ok_exists {α β : Type} {f : α → Except PyErr β} {P : β → Prop}
    {l : List α} (h : ∀ a ∈ l, ∃ b, f a = .ok b ∧ P b) :
    ∃ r, mapExcept f l = .ok r ∧ r.length = l.length ∧ ∀ b ∈ r, P b := by
  induction l with
  | nil => exact ⟨[], rfl, rfl, by simp⟩
  | cons a as ih =>
    obtain ⟨b, hb, hPb⟩ := h a (by simp)
    obtain ⟨r, hr, hlen, hP⟩ := ih (fun x hx => h x (by simp [hx]))
    refine ⟨b :: r, ?_, by simp [hlen], ?_⟩
    · simp only [mapExcept, hb, hr]
    · intro x hx
      rcases List.mem_cons.mp hx with hx | hx
      · exact hx ▸ hPb
      · exact hP x hx

theorem mapExcept_ok_get {α β : Type} {f : α → Except PyErr β} {l : List α}
    {r : List β} (h : mapExcept f l = .ok r) :
    r.length = l.length ∧ ∀ i (hi : i < l.length) (hr : i < r.length),
      f (l.get ⟨i, hi⟩) = .ok (r.get ⟨i, hr⟩) := by
  induction l generalizing r with
  | nil =>
    have hr : ([] : List β) = r := by simpa [mapExcept] using h
    subst hr
    exact ⟨rfl, fun i hi hr => absurd hi (by simp)⟩
  | cons a as ih =>
    simp only [mapExcept] at h
    cases hfa : f a with
    | error e => rw [hfa] at h; exact absurd h (by simp)
    | ok b =>
      rw [hfa] at h
      cases has : mapExcept f as with
      | error e => rw [has] at h; exact absurd h (by simp)
      | ok bs =>
        rw [has] at h
        obtain rfl : b :: bs = r := by simpa using h
        obtain ⟨hlen, hget⟩ := ih has
        refine ⟨by simp [hlen], fun i hi hr => ?_⟩
        cases i with
        | zero => simpa using hfa
        | succ j =>
          exact hget j (by simpa using hi) (by simpa using hr)

/-- One well-shaped record: index 0 exists, the chosen location's value
contains a `'/'`, and index 1 exists when index 0 is not the FTP one. -/
def WellShaped (r : FileRecord) : Prop :=
  ∃ l0, r.publicFileLocations[0]? = some l0 ∧
    (if l0.name = "FTP Protocol" then '/' ∈ l0.value.data
     else ∃ l1, r.publicFileLocations[1]? = some l1 ∧ '/' ∈ l1.value.data)

theorem downloadOne_ok {output_folder : String} {r : FileRecord}
    (h : WellShaped r) :
    ∃ uri,
      (∃ l0, r.publicFileLocations[0]? = some l0 ∧
        ((l0.name = "FTP Protocol" ∧ uri = l0.value) ∨
         (l0.name ≠ "FTP Protocol" ∧
           ∃ l1, r.publicFileLocations[1]? = some l1 ∧ uri = l1.value))) ∧
      downloadOne output_folder r = .ok ⟨uri, output_folder ++ basenameSpec uri⟩ := by
  obtain ⟨l0, h0, hrest⟩ := h
  by_cases hn : l0.name = "FTP Protocol"
  · rw [if_pos hn] at hrest
    refine ⟨l0.value, ⟨l0, h0, Or.inl ⟨hn, rfl⟩⟩, ?_⟩
    simp [downloadOne, selectFtpLocation, h0, hn,
      filenameAfterSlash_eq_basename hrest]
  · rw [if_neg hn] at hrest
    obtain ⟨l1, h1, hsl⟩ := hrest
    refine ⟨l1.value, ⟨l0, h0, Or.inr ⟨hn, l1, h1, rfl⟩⟩, ?_⟩
    simp [downloadOne, selectFtpLocation, h0, hn, h1,
      filenameAfterSlash_eq_basename hsl]

theorem copyOne_ok {dir : String} {listing : List String} {r : FileRecord}
    {l0 : Location} (h0 : r.publicFileLocations[0]? = some l0)
    (hs : '/' ∈ l0.value.data) :
    copyOne dir listing r =
      .ok (if basenameSpec l0.value ∈ listing then
             .copied (dir ++ basenameSpec l0.value)
               (r.accession ++ "-" ++ basenameSpec l0.value)
           else .notFound (basenameSpec l0.value) dir) := by
  by_cases hm : basenameSpec l0.value ∈ listing <;>
    simp [copyOne, h0, filenameAfterSlash_eq_basename hs, hm]

/-! ### Claims -/

/-- C4: `get_file_from_api` — whenever the underlying API call or JSON
parsing raises any exception, the operation fails with a generic exception
whose message is the fixed prefix `"File not found"` concatenated with the
text of the original failure; no structured error kind is attached. -/
theorem c4_get_file_from_api_wraps_errors {α : Type} :
    ∀ e : String, get_file_from_api (α := α) (.error e) =
      .error (.exception ("File not found" ++ e)) :=
  fun _ => rfl

/-- C6: `get_all_paged_files` builds the request URL as base ++ `"files?"`
followed, when the filter is non-empty, by `"filter=" ++ filter ++ "&"`,
then always `"pageSize=" ++ pageSize ++ "&page=" ++ page ++
"&sortDirection=" ++ sortDirection ++ "&sortConditions=" ++ sortConditions`,
with filter and sort values passed through verbatim; the GET is issued with
header `Accept: application/JSON` and the parsed JSON body is returned
unmodified (i.e. the result is exactly what the transport oracle returns for
that request). -/
theorem c6_get_all_paged_files_request {α : Type} (api : Request → α)
    (query_filter : String) (page_size page : Nat)
    (sort_direction sort_conditions : String) :
    get_all_paged_files api query_filter page_size page sort_direction
        sort_conditions =
      api ⟨(if query_filter = "" then
              "https://www.ebi.ac.uk/pride/ws/archive/v2/" ++ "files?"
            else
              "https://www.ebi.ac.uk/pride/ws/archive/v2/" ++ "files?" ++
                "filter=" ++ query_filter ++ "&") ++
            "pageSize=" ++ toString page_size ++ "&page=" ++ toString page ++
            "&sortDirection=" ++ sort_direction ++ "&sortConditions=" ++
            sort_conditions,
          [("Accept", "application/JSON")]⟩ := by
  unfold get_all_paged_files api_base_url
  by_cases hq : query_filter = "" <;> simp [hq]

/-- C1: for every file-record list of length N passed through
`download_files_from_ftp` (with each record well-shaped), exactly N
retrievals are attempted, in list order; for each record the FTP URI is
`publicFileLocations[0].value` when `publicFileLocations[0].name` equals
`"FTP Protocol"` and `publicFileLocations[1].value` otherwise (no further
fallback), and the file is written to `outputFolder ++ filename` where
`filename` is the substring after the last `'/'` of that URI. -/
theorem c1_download_files_from_ftp (file_list : List FileRecord)
    (output_folder : String) (h : ∀ r ∈ file_list, WellShaped r) :
    ∃ rs, download_files_from_ftp file_list output_folder = .ok rs ∧
      rs.length = file_list.length ∧
      ∀ i (hi : i < file_list.length) (hr : i < rs.length),
        ∃ uri,
          (∃ l0, (file_list.get ⟨i, hi⟩).publicFileLocations[0]? = some l0 ∧
            ((l0.name = "FTP Protocol" ∧ uri = l0.value) ∨
             (l0.name ≠ "FTP Protocol" ∧
               ∃ l1, (file_list.get ⟨i, hi⟩).publicFileLocations[1]? = some l1 ∧
                 uri = l1.value))) ∧
          rs.get ⟨i, hr⟩ = ⟨uri, output_folder ++ basenameSpec uri⟩ := by
  obtain ⟨rs, hrs, hlen, -⟩ :=
    mapExcept_ok_exists (f := downloadOne output_folder) (P := fun _ => True)
      (fun r hr => by
        obtain ⟨uri, -, heq⟩ := downloadOne_ok (h r hr)
        exact ⟨_, heq, trivial⟩)
  refine ⟨rs, hrs, hlen, fun i hi hr => ?_⟩
  obtain ⟨-, hget⟩ := mapExcept_ok_get hrs
  obtain ⟨uri, hsel, heq⟩ := downloadOne_ok (h _ (List.get_mem file_list i hi))
  refine ⟨uri, hsel, ?_⟩
  have := hget i hi hr
  rw [heq] at this
  exact (by simpa using this.symm)

/-- Witness for C1: two records, the first with the FTP location at index 0,
the second with it at index 1; both retrievals happen, in order, with the
filenames cut after the last `'/'`. -/
theorem c1_download_files_from_ftp_witness :
    download_files_from_ftp
        [⟨"PXD1", [⟨"FTP Protocol", "ftp://h/a/f1.raw"⟩]⟩,
         ⟨"PXD2", [⟨"Aspera Protocol", "aspera://h/x"⟩,
                   ⟨"FTP Protocol", "ftp://h/a/f2.raw"⟩]⟩] "out/" =
      .ok [⟨"ftp://h/a/f1.raw", "out/f1.raw"⟩,
           ⟨"ftp://h/a/f2.raw", "out/f2.raw"⟩] ∧
    (∃ rs, download_files_from_ftp
        [⟨"PXD1", [⟨"FTP Protocol", "ftp://h/a/f1.raw"⟩]⟩,
         ⟨"PXD2", [⟨"Aspera Protocol", "aspera://h/x"⟩,
                   ⟨"FTP Protocol", "ftp://h/a/f2.raw"⟩]⟩] "out/" = .ok rs ∧
      rs.length = 2 ∧
      ∀ i (hi : i < ([⟨"PXD1", [⟨"FTP Protocol", "ftp://h/a/f1.raw"⟩]⟩,
         ⟨"PXD2", [⟨"Aspera Protocol", "aspera://h/x"⟩,
                   ⟨"FTP Protocol", "ftp://h/a/f2.raw"⟩]⟩] :
            List FileRecord).length) (hr : i < rs.length),
        ∃ uri,
          (∃ l0, (([⟨"PXD1", [⟨"FTP Protocol", "ftp://h/a/f1.raw"⟩]⟩,
             ⟨"PXD2", [⟨"Aspera Protocol", "aspera://h/x"⟩,
                       ⟨"FTP Protocol", "ftp://h/a/f2.raw"⟩]⟩] :
              List FileRecord).get ⟨i, hi⟩).publicFileLocations[0]? =
                some l0 ∧
            ((l0.name = "FTP Protocol" ∧ uri = l0.value) ∨
             (l0.name ≠ "FTP Protocol" ∧
               ∃ l1, (([⟨"PXD1", [⟨"FTP Protocol", "ftp://h/a/f1.raw"⟩]⟩,
                 ⟨"PXD2", [⟨"Aspera Protocol", "aspera://h/x"⟩,
                           ⟨"FTP Protocol", "ftp://h/a/f2.raw"⟩]⟩] :
                  List FileRecord).get ⟨i, hi⟩).publicFileLocations[1]? =
                    some l1 ∧ uri = l1.value))) ∧
          rs.get ⟨i, hr⟩ = ⟨uri, "out/" ++ basenameSpec uri⟩) := by
  constructor
  · rfl
  · exact c1_download_files_from_ftp _ "out/" (by
      intro r hr
      fin_cases hr
      · exact ⟨⟨"FTP Protocol", "ftp://h/a/f1.raw"⟩, rfl, by
          rw [if_pos rfl]; decide⟩
      · exact ⟨⟨"Aspera Protocol", "aspera://h/x"⟩, rfl, by
          rw [if_neg (by decide)]
          exact ⟨⟨"FTP Protocol", "ftp://h/a/f2.raw"⟩, rfl, by decide⟩⟩)

/-- C3: in `copy_from_dir`, for every API record (with a first location whose
value contains `'/'`): if the filename derived from its location value (the
substring after the last `'/'`) is present in the local-directory listing,
the file `sourceDir ++ filename` is copied to the current working directory
under the (relative) name `<record.accession>-<filename>`; if it is absent,
the record is logged as not found and skipped, and no exception is raised. -/
theorem c3_copy_from_dir (dir : String) (listing : List String)
    (records : List FileRecord)
    (h : ∀ r ∈ records, ∃ l0, r.publicFileLocations[0]? = some l0 ∧
      '/' ∈ l0.value.data) :
    ∃ evs, copy_from_dir dir listing records = .ok evs ∧
      evs.length = records.length ∧
      ∀ i (hi : i < records.length) (he : i < evs.length),
        ∃ l0, (records.get ⟨i, hi⟩).publicFileLocations[0]? = some l0 ∧
          ((basenameSpec l0.value ∈ listing ∧
             evs.get ⟨i, he⟩ = .copied (dir ++ basenameSpec l0.value)
               ((records.get ⟨i, hi⟩).accession ++ "-" ++ basenameSpec l0.value)) ∨
           (basenameSpec l0.value ∉ listing ∧
             evs.get ⟨i, he⟩ = .notFound (basenameSpec l0.value) dir)) := by
  obtain ⟨evs, hevs, hlen, -⟩ :=
    mapExcept_ok_exists (f := copyOne dir listing) (P := fun _ => True)
      (fun r hr => by
        obtain ⟨l0, h0, hs⟩ := h r hr
        exact ⟨_, copyOne_ok h0 hs, trivial⟩)
  refine ⟨evs, hevs, hlen, fun i hi he => ?_⟩
  obtain ⟨-, hget⟩ := mapExcept_ok_get hevs
  obtain ⟨l0, h0, hs⟩ := h _ (List.get_mem records i hi)
  refine ⟨l0, h0, ?_⟩
  have hone := hget i hi he
  rw [copyOne_ok h0 hs] at hone
  have hev : evs.get ⟨i, he⟩ =
      (if basenameSpec l0.value ∈ listing then
         CopyEvent.copied (dir ++ basenameSpec l0.value)
           ((records.get ⟨i, hi⟩).accession ++ "-" ++ basenameSpec l0.value)
       else CopyEvent.notFound (basenameSpec l0.value) dir) := by
    simpa using hone.symm
  by_cases hm : basenameSpec l0.value ∈ listing
  · exact Or.inl ⟨hm, by rw [hev, if_pos hm]⟩
  · exact Or.inr ⟨hm, by rw [hev, if_neg hm]⟩

/-- Witness for C3: with local files `{a.raw, b.raw}` and API records for
`{a.raw, c.raw}`, only `a.raw` is copied (as `F1-a.raw`); `c.raw` is logged
as not found, and no exception is raised. -/
theorem c3_copy_from_dir_witness :
    copy_from_dir "src/" ["a.raw", "b.raw"]
        [⟨"F1", [⟨"FTP Protocol", "ftp://h/p/a.raw"⟩]⟩,
         ⟨"F2", [⟨"FTP Protocol", "ftp://h/p/c.raw"⟩]⟩] =
      .ok [.copied "src/a.raw" "F1-a.raw", .notFound "c.raw" "src/"] ∧
    (∃ evs, copy_from_dir "src/" ["a.raw", "b.raw"]
        [⟨"F1", [⟨"FTP Protocol", "ftp://h/p/a.raw"⟩]⟩,
         ⟨"F2", [⟨"FTP Protocol", "ftp://h/p/c.raw"⟩]⟩] = .ok evs ∧
      evs.length = 2 ∧
      ∀ i (hi : i < ([⟨"F1", [⟨"FTP Protocol", "ftp://h/p/a.raw"⟩]⟩,
           ⟨"F2", [⟨"FTP Protocol", "ftp://h/p/c.raw"⟩]⟩] :
             List FileRecord).length) (he : i < evs.length),
        ∃ l0, (([⟨"F1", [⟨"FTP Protocol", "ftp://h/p/a.raw"⟩]⟩,
            ⟨"F2", [⟨"FTP Protocol", "ftp://h/p/c.raw"⟩]⟩] :
              List FileRecord).get ⟨i, hi⟩).publicFileLocations[0]? =
                some l0 ∧
          ((basenameSpec l0.value ∈ ["a.raw", "b.raw"] ∧
             evs.get ⟨i, he⟩ = .copied ("src/" ++ basenameSpec l0.value)
               ((([⟨"F1", [⟨"FTP Protocol", "ftp://h/p/a.raw"⟩]⟩,
                  ⟨"F2", [⟨"FTP Protocol", "ftp://h/p/c.raw"⟩]⟩] :
                    List FileRecord).get ⟨i, hi⟩).accession ++ "-" ++
                 basenameSpec l0.value)) ∨
           (basenameSpec l0.value ∉ ["a.raw", "b.raw"] ∧
             evs.get ⟨i, he⟩ = .notFound (basenameSpec l0.value) "src/"))) := by
  constructor
  · rfl
  · exact c3_copy_from_dir "src/" ["a.raw", "b.raw"] _ (by
      intro r hr
      fin_cases hr
      · exact ⟨⟨"FTP Protocol", "ftp://h/p/a.raw"⟩, rfl, by decide⟩
      · exact ⟨⟨"FTP Protocol", "ftp://h/p/c.raw"⟩, rfl, by decide⟩)

/-- C10 (implicit): the copy path derives filenames from
`publicFileLocations[0].value` unconditionally — `copy_from_dir` performs no
`"FTP Protocol"` name-tag check and never falls back to index 1, unlike
`download_files_from_ftp`; so for a record whose index-0 location is not the
FTP one, the copy path's filename comes from that non-FTP location value
while the download path would select `publicFileLocations[1].value`. -/
theorem c10_copy_ignores_protocol_tag (r : FileRecord) (l0 l1 : Location)
    (dir : String) (listing : List String)
    (h0 : r.publicFileLocations[0]? = some l0)
    (h1 : r.publicFileLocations[1]? = some l1)
    (hn : l0.name ≠ "FTP Protocol") (hs : '/' ∈ l0.value.data) :
    copyOne dir listing r =
      .ok (if basenameSpec l0.value ∈ listing then
             .copied (dir ++ basenameSpec l0.value)
               (r.accession ++ "-" ++ basenameSpec l0.value)
           else .notFound (basenameSpec l0.value) dir) ∧
    selectFtpLocation r = .ok l1.value := by
  exact ⟨copyOne_ok h0 hs, by simp [selectFtpLocation, h0, h1, hn]⟩

/-- Witness for C10: a record whose first location is an Aspera URI and
whose second is the FTP one; the copy path names the file after the Aspera
value while the download path selects the FTP value. -/
theorem c10_copy_ignores_protocol_tag_witness :
    copyOne "d/" []
        ⟨"F1", [⟨"Aspera Protocol", "asp://h/p/x.raw"⟩,
                ⟨"FTP Protocol", "ftp://h/q/y.raw"⟩]⟩ =
      .ok (if basenameSpec "asp://h/p/x.raw" ∈ ([] : List String) then
             .copied ("d/" ++ basenameSpec "asp://h/p/x.raw")
               ("F1" ++ "-" ++ basenameSpec "asp://h/p/x.raw")
           else .notFound (basenameSpec "asp://h/p/x.raw") "d/") ∧
    selectFtpLocation
        ⟨"F1", [⟨"Aspera Protocol", "asp://h/p/x.raw"⟩,
                ⟨"FTP Protocol", "ftp://h/q/y.raw"⟩]⟩ =
      .ok "ftp://h/q/y.raw" :=
  c10_copy_ignores_protocol_tag _ ⟨"Aspera Protocol", "asp://h/p/x.raw"⟩
    ⟨"FTP Protocol", "ftp://h/q/y.raw"⟩ "d/" [] rfl rfl (by decide) (by decide)

/-- C8: `download_raw_files_from_ftp` and `download_file_from_ftp_by_name`
are idempotent with respect to output-directory creation: `os.mkdir` is
attempted only when the output directory is absent, so re-running with the
output directory already existing does not raise from the directory-ensure
step — both functions then behave exactly as their post-ensure body with the
directory list unchanged and no mkdir attempted. -/
theorem c8_ensure_dir_idempotent (dirs : List String) (output_folder : String)
    (h : output_folder ∈ dirs) :
    ensure_output_folder dirs output_folder = .ok ⟨dirs, false⟩ ∧
    (∀ records, download_raw_files_from_ftp dirs records output_folder =
      match download_files_from_ftp records output_folder with
      | .error e => .error e
      | .ok rs => .ok (⟨dirs, false⟩, rs)) ∧
    (∀ apiOutcome, download_file_from_ftp_by_name dirs apiOutcome output_folder =
      match get_file_from_api apiOutcome with
      | .error e => .error e
      | .ok response =>
        match download_files_from_ftp response output_folder with
        | .error e => .error e
        | .ok rs => .ok (⟨dirs, false⟩, rs)) := by
  have he : ensure_output_folder dirs output_folder = .ok ⟨dirs, false⟩ := by
    simp [ensure_output_folder, h]
  refine ⟨he, fun records => ?_, fun apiOutcome => ?_⟩
  · rw [download_raw_files_from_ftp, he]
  · rw [download_file_from_ftp_by_name, he]

/-- Witness for C8: with the output directory already present, both download
entry points reduce to their download body, with no mkdir attempted. -/
theorem c8_ensure_dir_idempotent_witness :
    ensure_output_folder ["out/"] "out/" = .ok ⟨["out/"], false⟩ ∧
    (∀ records, download_raw_files_from_ftp ["out/"] records "out/" =
      match download_files_from_ftp records "out/" with
      | .error e => .error e
      | .ok rs => .ok (⟨["out/"], false⟩, rs)) ∧
    (∀ apiOutcome, download_file_from_ftp_by_name ["out/"] apiOutcome "out/" =
      match get_file_from_api apiOutcome with
      | .error e => .error e
      | .ok response =>
        match download_files_from_ftp response "out/" with
        | .error e => .error e
        | .ok rs => .ok (⟨["out/"], false⟩, rs)) :=
  c8_ensure_dir_idempotent ["out/"] "out/" (by decide)

/-! ### Lemmas about the `\d{4}/\d{2}/PXD\d*` matcher -/

theorem prefix_takeWhile {p : Char → Bool} {ds rest : List Char}
    (hpre : ds <+: rest) (hall : ds.all p = true) :
    ds <+: rest.takeWhile p := by
  induction ds generalizing rest with
  | nil => exact List.nil_prefix
  | cons d ds ih =>
    obtain ⟨u, hu⟩ := hpre
    cases rest with
    | nil => exact absurd hu (by simp)
    | cons r rest =>
      obtain ⟨hd, hrest⟩ : d = r ∧ ds ++ u = rest := by simpa using hu
      simp only [List.all_cons, Bool.and_eq_true] at hall
      subst hd
      rw [List.takeWhile_cons, if_pos hall.1]
      obtain ⟨t, ht⟩ := ih ⟨u, hrest⟩ hall.2
      exact ⟨t, by simp [ht]⟩

theorem matchPXDAt_some {cs m : List Char} (h : matchPXDAt cs = some m) :
    m <+: cs ∧ pxdShape m = true := by
  rw [matchPXDAt.eq_def] at h
  split at h
  · split at h
    · rename_i d1 d2 d3 d4 s1 m1 m2 s2 p x d rest hcond
      obtain ⟨h1, h2, h3, h4, h5, h6, h7, h8, h9, h10, h11⟩ := hcond
      obtain rfl : _ = m := by simpa using h
      subst h5; subst h8; subst h9; subst h10; subst h11
      constructor
      · obtain ⟨u, hu⟩ := List.takeWhile_prefix (l := rest) (p := fun c => c.isDigit)
        exact ⟨u, by simp [hu]⟩
      · have hall : (rest.takeWhile (fun c => c.isDigit)).all
            (fun c => c.isDigit) = true := by
          rw [List.all_eq_true]
          intro c hc
          exact List.mem_takeWhile_imp hc
        simp [pxdShape, h1, h2, h3, h4, h6, h7, hall]
    · exact absurd h (by simp)
  · exact absurd h (by simp)

theorem pxdShape_eq_true {w : List Char} (h : pxdShape w = true) :
    ∃ e1 e2 e3 e4 f1 f2 ds,
      w = e1 :: e2 :: e3 :: e4 :: '/' :: f1 :: f2 :: '/' ::
        'P' :: 'X' :: 'D' :: ds ∧
      e1.isDigit = true ∧ e2.isDigit = true ∧ e3.isDigit = true ∧
      e4.isDigit = true ∧ f1.isDigit = true ∧ f2.isDigit = true ∧
      ds.all (fun c => c.isDigit) = true := by
  rw [pxdShape.eq_def] at h
  split at h
  · rename_i e1 e2 e3 e4 s1 f1 f2 s2 p x d ds
    simp only [Bool.and_eq_true, decide_eq_true_eq] at h
    obtain ⟨⟨⟨⟨⟨⟨⟨⟨⟨⟨⟨h1, h2⟩, h3⟩, h4⟩, hs1⟩, h5⟩, h6⟩, hs2⟩, hp⟩, hx⟩, hd⟩,
      hall⟩ := h
    subst hs1
    subst hs2
    subst hp
    subst hx
    subst hd
    exact ⟨e1, e2, e3, e4, f1, f2, ds, rfl, h1, h2, h3, h4, h5, h6, hall⟩
  · exact absurd h (by simp)

theorem matchPXDAt_maximal {cs m m' : List Char} (h : matchPXDAt cs = some m)
    (hpre : m' <+: cs) (hshape : pxdShape m' = true) :
    m'.length ≤ m.length := by
  obtain ⟨e1, e2, e3, e4, f1, f2, ds, rfl, -, -, -, -, -, -, hall⟩ :=
    pxdShape_eq_true hshape
  rw [matchPXDAt.eq_def] at h
  split at h
  · split at h
    · rename_i d1 d2 d3 d4 s1 m1 m2 s2 p x d rest hcond
      obtain rfl : _ = m := by simpa using h
      simp only [List.cons_prefix_cons] at hpre
      obtain ⟨-, -, -, -, -, -, -, -, -, -, -, hds⟩ := hpre
      have hle := (prefix_takeWhile hds hall).length_le
      simp only [List.length_append, List.length_cons]
      omega
    · exact absurd h (by simp)
  · exact absurd h (by simp)

theorem matchPXDAt_isSome_of_shape {cs m' : List Char} (hpre : m' <+: cs)
    (hshape : pxdShape m' = true) : matchPXDAt cs ≠ none := by
  obtain ⟨e1, e2, e3, e4, f1, f2, ds, rfl, h1, h2, h3, h4, h5, h6, -⟩ :=
    pxdShape_eq_true hshape
  obtain ⟨u, hu⟩ := hpre
  subst hu
  rw [matchPXDAt.eq_def]
  simp [h1, h2, h3, h4, h5, h6]

theorem searchPXD_some {cs m : List Char} (h : searchPXD cs = some m) :
    ∃ n, matchPXDAt (cs.drop n) = some m ∧
      ∀ k < n, matchPXDAt (cs.drop k) = none := by
  induction cs with
  | nil => exact absurd h (by simp [searchPXD])
  | cons c cs ih =>
    rw [searchPXD] at h
    cases hm : matchPXDAt (c :: cs) with
    | some m0 =>
      rw [hm] at h
      obtain rfl : m0 = m := by simpa using h
      exact ⟨0, hm, fun k hk => absurd hk (by omega)⟩
    | none =>
      rw [hm] at h
      obtain ⟨n, hn, hbefore⟩ := ih h
      refine ⟨n + 1, by simpa using hn, fun k hk => ?_⟩
      cases k with
      | zero => simpa using hm
      | succ j => simpa using hbefore j (by omega)

theorem searchPXD_none {cs : List Char} (h : searchPXD cs = none) :
    ∀ n, matchPXDAt (cs.drop n) = none := by
  induction cs with
  | nil => intro n; simp [matchPXDAt]
  | cons c cs ih =>
    rw [searchPXD] at h
    cases hm : matchPXDAt (c :: cs) with
    | some m0 => rw [hm] at h; exact absurd h (by simp)
    | none =>
      rw [hm] at h
      intro n
      cases n with
      | zero => simpa using hm
      | succ j => simpa using ih h j

/-- C2: `get_submitted_file_path_prefix` returns the first (leftmost, and at
that position longest) substring of the first record's first location value
matching a 4-digit year, `'/'`, a 2-digit month, `'/'`, and a
`PXD`-prefixed digit token — the regex `\d{4}/\d{2}/PXD\d*`.  Whenever it
returns `s`, `s` has that shape, occurs in the value, no earlier position
carries a match, and no longer match starts at the same position. -/
theorem c2_get_submitted_file_path_prefix (results : List FileRecord)
    (r0 : FileRecord) (l0 : Location) (s : String)
    (h0 : results[0]? = some r0)
    (h1 : r0.publicFileLocations[0]? = some l0)
    (hs : get_submitted_file_path_prefix results = .ok s) :
    pxdShape s.data = true ∧
    ∃ pre post, l0.value.data = pre ++ s.data ++ post ∧
      ∀ pre' m' post', l0.value.data = pre' ++ m' ++ post' →
        pxdShape m' = true →
        pre.length ≤ pre'.length ∧
        (pre'.length = pre.length → m'.length ≤ s.data.length) := by
  simp only [ get_submitted_file_path_prefix, h0, h1] at hs
  cases hsearch : searchPXD l0.value.data with
  | none => rw [hsearch] at hs; exact absurd hs (by simp)
  | some m =>
    rw [hsearch] at hs
    obtain rfl : String.mk m = s := by simpa using hs
    have hsd : (String.mk m).data = m := rfl
    rw [hsd]
    obtain ⟨n, hmat, hbefore⟩ := searchPXD_some hsearch
    obtain ⟨⟨post, hpost⟩, hshape⟩ := matchPXDAt_some hmat
    have hnlt : n < l0.value.data.length := by
      by_contra hge
      have hnil : l0.value.data.drop n = [] :=
        List.drop_eq_nil_of_le (by omega)
      rw [hnil] at hmat
      exact absurd hmat (by simp [matchPXDAt])
    have htklen : (l0.value.data.take n).length = n := by
      rw [List.length_take]
      omega
    refine ⟨hshape, l0.value.data.take n, post, ?_, ?_⟩
    · conv_lhs => rw [← List.take_append_drop n l0.value.data, ← hpost]
      rw [List.append_assoc]
    · intro pre' m' post' hsplit hshape'
      have hdrop' : l0.value.data.drop pre'.length = m' ++ post' := by
        rw [hsplit, List.append_assoc, List.drop_left]
      constructor
      · by_contra hlt
        push_neg at hlt
        have hk : pre'.length < n := by omega
        exact matchPXDAt_isSome_of_shape ⟨post', hdrop'.symm⟩ hshape'
          (hbefore pre'.length hk)
      · intro heq
        rw [htklen] at heq
        rw [heq] at hdrop'
        exact matchPXDAt_maximal hmat ⟨post', hdrop'.symm⟩ hshape'

/-- Witness for C2: on the URI
`ftp://ftp.pride.ebi.ac.uk/pride/data/archive/2018/10/PXD008644/7550GI_Y.raw`
the function returns exactly `"2018/10/PXD008644"`, which is the leftmost
longest substring of the required shape. -/
theorem c2_get_submitted_file_path_prefix_witness :
    get_submitted_file_path_prefix
        [⟨"PXD008644", [⟨"FTP Protocol",
          "ftp://ftp.pride.ebi.ac.uk/pride/data/archive/2018/10/PXD008644/7550GI_Y.raw"⟩]⟩] =
      .ok "2018/10/PXD008644" ∧
    (pxdShape ("2018/10/PXD008644" : String).data = true ∧
     ∃ pre post,
       ("ftp://ftp.pride.ebi.ac.uk/pride/data/archive/2018/10/PXD008644/7550GI_Y.raw" : String).data =
         pre ++ ("2018/10/PXD008644" : String).data ++ post ∧
       ∀ pre' m' post',
         ("ftp://ftp.pride.ebi.ac.uk/pride/data/archive/2018/10/PXD008644/7550GI_Y.raw" : String).data =
           pre' ++ m' ++ post' →
         pxdShape m' = true →
         pre.length ≤ pre'.length ∧
         (pre'.length = pre.length →
           m'.length ≤ ("2018/10/PXD008644" : String).data.length)) :=
  ⟨rfl,
   c2_get_submitted_file_path_prefix
     [⟨"PXD008644", [⟨"FTP Protocol",
       "ftp://ftp.pride.ebi.ac.uk/pride/data/archive/2018/10/PXD008644/7550GI_Y.raw"⟩]⟩]
     ⟨"PXD008644", [⟨"FTP Protocol",
       "ftp://ftp.pride.ebi.ac.uk/pride/data/archive/2018/10/PXD008644/7550GI_Y.raw"⟩]⟩
     ⟨"FTP Protocol",
       "ftp://ftp.pride.ebi.ac.uk/pride/data/archive/2018/10/PXD008644/7550GI_Y.raw"⟩
     "2018/10/PXD008644" rfl rfl rfl⟩

/-- C5: `get_submitted_file_path_prefix` fails with an unhandled error when
the raw-file list returned by the API is empty (IndexError on the first
record), and when the first record's first location value contains no
substring matching the year/month/PXD pattern (AttributeError from calling
`.group()` on the `None` returned by `re.search`). -/
theorem c5_path_prefix_failures :
    get_submitted_file_path_prefix ([] : List FileRecord) =
      .error .indexError ∧
    ∀ results r0 l0, results[0]? = some (r0 : FileRecord) →
      r0.publicFileLocations[0]? = some l0 →
      (∀ m, m <:+: l0.value.data → pxdShape m = false) →
      get_submitted_file_path_prefix results = .error .attributeError := by
  refine ⟨rfl, fun results r0 l0 h0 h1 hno => ?_⟩
  simp only [ get_submitted_file_path_prefix, h0, h1]
  cases hsearch : searchPXD l0.value.data with
  | none => rfl
  | some m =>
    obtain ⟨n, hmat, -⟩ := searchPXD_some hsearch
    obtain ⟨⟨post, hpost⟩, hshape⟩ := matchPXDAt_some hmat
    have hinf : m <:+: l0.value.data := by
      refine ⟨l0.value.data.take n, post, ?_⟩
      rw [List.append_assoc, hpost, List.take_append_drop]
    rw [hno m hinf] at hshape
    exact absurd hshape (by simp)

/-- Witness for C5: the empty record list raises IndexError, and a first
location whose value is the empty string (so no substring matches the
pattern) raises AttributeError. -/
theorem c5_path_prefix_failures_witness :
    get_submitted_file_path_prefix ([] : List FileRecord) =
      .error .indexError ∧
    get_submitted_file_path_prefix [⟨"A", [⟨"FTP Protocol", ""⟩]⟩] =
      .error .attributeError :=
  ⟨c5_path_prefix_failures.1,
   c5_path_prefix_failures.2 _ _ _ rfl rfl (fun m hm => by
     obtain rfl : m = [] := by simpa using hm
     rfl)⟩

/-- C7: `get_files_from_dir` returns exactly the basenames (substring after
the last `'/'`) of the directory entries matching the given shell-glob
pattern, in listing (filesystem-dependent) order; when no entry matches
(including an empty or nonexistent directory, whose listing holds no
matching entry) it returns the empty sequence. -/
theorem c7_get_files_from_dir (entries : List String) (location regex : String)
    (h : ∀ e ∈ entries, '/' ∈ e.data) :
    get_files_from_dir entries location regex =
      .ok ((entries.filter (fun e =>
        globMatch (location ++ regex).data e.data)).map basenameSpec) ∧
    (glob_glob entries (location ++ regex) = [] →
      get_files_from_dir entries location regex = .ok []) := by
  have hmain : get_files_from_dir entries location regex =
      .ok ((glob_glob entries (location ++ regex)).map basenameSpec) := by
    unfold get_files_from_dir
    exact mapExcept_ok_of_forall (fun e he =>
      filenameAfterSlash_eq_basename (h e (List.mem_of_mem_filter he)))
  refine ⟨hmain, fun hempty => ?_⟩
  rw [hmain, hempty]
  rfl

/-- Witness for C7: a directory listing with two `.raw` files and one `.txt`
file, globbed with `*.raw`. -/
theorem c7_get_files_from_dir_witness :
    get_files_from_dir ["d/a.raw", "d/b.txt", "d/c.raw"] "d/" "*.raw" =
      .ok ((["d/a.raw", "d/b.txt", "d/c.raw"].filter (fun e =>
        globMatch (("d/" : String) ++ "*.raw").data e.data)).map basenameSpec) ∧
    (glob_glob ["d/a.raw", "d/b.txt", "d/c.raw"] (("d/" : String) ++ "*.raw") = [] →
      get_files_from_dir ["d/a.raw", "d/b.txt", "d/c.raw"] "d/" "*.raw" = .ok []) :=
  c7_get_files_from_dir _ "d/" "*.raw" (by decide)

/-- C9: when the expected source directory
`<base>/<pathFragment>/submitted/` does not exist (and hence no filesystem
entry matches its `*.raw` glob), `copy_raw_files_from_dir` logs the
missing-directory condition and continues without raising; the local listing
is empty, so every API record is logged as not found and no file is
copied. -/
theorem c9_copy_raw_files_missing_dir (dirs entries : List String)
    (records : List FileRecord) (base pf : String)
    (hpf : get_submitted_file_path_prefix records = .ok pf)
    (hdir : (base ++ "/" ++ pf ++ "/submitted/") ∉ dirs)
    (hent : ∀ e ∈ entries,
      globMatch ((base ++ "/" ++ pf ++ "/submitted/" ++ "*.raw") : String).data
        e.data = false)
    (hrec : ∀ r ∈ records, ∃ l0, r.publicFileLocations[0]? = some l0 ∧
      '/' ∈ l0.value.data) :
    ∃ evs, copy_raw_files_from_dir dirs entries records base =
        .ok ⟨true, evs⟩ ∧
      evs.length = records.length ∧
      ∀ ev ∈ evs, ∃ f d, ev = CopyEvent.notFound f d := by
  have hglob : glob_glob entries
      ((base ++ "/" ++ pf ++ "/submitted/") ++ "*.raw") = [] := by
    unfold glob_glob
    rw [List.filter_eq_nil_iff]
    intro e he
    simpa using hent e he
  have hlist : get_files_from_dir entries
      (base ++ "/" ++ pf ++ "/submitted/") "*.raw" = .ok [] := by
    unfold get_files_from_dir
    rw [hglob]
    rfl
  obtain ⟨evs, hevs, hlen, hall⟩ :=
    mapExcept_ok_exists
      (f := copyOne (base ++ "/" ++ pf ++ "/submitted/") [])
      (P := fun ev => ∃ f d, ev = CopyEvent.notFound f d)
      (fun r hr => by
        obtain ⟨l0, h0, hs⟩ := hrec r hr
        refine ⟨_, copyOne_ok h0 hs, ?_⟩
        rw [if_neg (by simp)]
        exact ⟨_, _, rfl⟩)
  refine ⟨evs, ?_, hlen, hall⟩
  simp only [copy_raw_files_from_dir, hpf, hlist, copy_from_dir, hevs]
  simp [hdir]

/-- Witness for C9: one record, an empty filesystem (no directories, no
entries); the run reports the missing directory and one not-found event. -/
theorem c9_copy_raw_files_missing_dir_witness :
    ∃ evs, copy_raw_files_from_dir [] []
        [⟨"PXD1", [⟨"FTP Protocol", "ftp://h/2018/10/PXD1/a.raw"⟩]⟩] "/nfs" =
        .ok ⟨true, evs⟩ ∧
      evs.length = 1 ∧
      ∀ ev ∈ evs, ∃ f d, ev = CopyEvent.notFound f d :=
  c9_copy_raw_files_missing_dir [] []
    [⟨"PXD1", [⟨"FTP Protocol", "ftp://h/2018/10/PXD1/a.raw"⟩]⟩]
    "/nfs" "2018/10/PXD1" rfl (by simp) (by simp)
    (by
      intro r hr
      fin_cases hr
      exact ⟨⟨"FTP Protocol", "ftp://h/2018/10/PXD1/a.raw"⟩, rfl, by decide⟩)

end Pridepy
